import Mathlib

/-!
Shallow embedding of `report.py` (cloud posture compliance report script).

The script queries a REST API for compliance "checks" across accounts.  The
parts embedded here are the pure decision logic of:

* `RateLimitHandler.handle_rate_limit` — retry predicate for HTTP 429;
* `_fetch_checks_with_filter` — the paged fetch loop with its 10,000-result
  ceiling detection (9800-item margin on a clean stop, forced stop at 10,000
  accumulated items or at `max_pages`), rate-limit retry and error returns;
* `_deduplicate_checks` — first-seen dedup keyed by the (Python-truthy)
  check id;
* `fetch_service_data` / `fetch_services_concurrently` /
  `_get_checks_with_comprehensive_service_chunking` — the per-service
  partition fan-out and the merge of per-service outcomes;
* `_get_unknown_services` — the catch-all exclusion-filter construction and
  its 1500-character length guard (modelled on the filter-string lengths);
* the client-side date-window inclusion logic of
  `process_checks_for_account` and the widened server-side lookback window
  for SUCCESS queries in `_fetch_checks_with_filter`;
* `ProgressTracker` — the resumable checkpoint state machine — and the
  completion bookkeeping of `get_checks_for_account` / `main`.

HTTP transport is abstracted as a deterministic response source (a state
plus a step function); the thread pools are modelled by processing the
per-service outcomes in submission order, which fixes one of the
nondeterministic completion orders.  Timestamps are integers (epoch
seconds), and `timedelta(days=d)` is `86400 * d`.
-/

namespace Report

/-- Check status as used by the script (`status eq 'SUCCESS' / 'FAILURE'`). -/
inductive Status where
  | SUCCESS
  | FAILURE
deriving DecidableEq, Repr

/-- A check record, restricted to the fields the embedded logic reads.
`id` is the dedup key (`check.get('id')`); a missing key is `none` and the
empty string is Python-falsy.  Date fields are epoch timestamps; `none`
stands for a missing or unparseable value (the script treats a parse
failure the same as a missing field). -/
structure Check where
  id : Option String
  service : String
  status : Status
  resolvedDateTime : Option Int
  failureDiscoveredDateTime : Option Int
  statusUpdatedDateTime : Option Int
  updatedDateTime : Option Int
deriving DecidableEq, Repr

/-- One conjunct of a `TMV1-Filter` expression, as assembled by the script
(`accountId eq '...'`, `riskLevel eq '...'` or an `or`-group of them,
`status eq '...'`, `service eq '...'`, `not service eq '...'`). -/
inductive FilterCond where
  | accountId (v : String)
  | riskLevel (v : String)
  | riskLevelOr (vs : List String)
  | status (s : Status)
  | service (v : String)
  | notService (v : String)
deriving DecidableEq, Repr

/-- Error values returned by `_fetch_checks_with_filter` and
`fetch_service_data` (`'rate_limit_exceeded'`, `f'http_{code}'`, the
`str(e)` of a requests exception, and the `'no_data'` default). -/
inductive FetchError where
  | rate_limit_exceeded
  | http (code : Nat)
  | request_exception
  | no_data
deriving DecidableEq, Repr

/-- One HTTP response observed by the fetch loop: a 200 page (its items and
whether a `nextLink` is present), a 429, any other status code, or a
requests-level exception (timeout etc.). -/
inductive ApiResponse (α : Type) where
  | ok (items : List α) (hasNext : Bool)
  | rateLimited
  | httpError (code : Nat)
  | timeout
deriving DecidableEq, Repr

/-- Result dictionary of `_fetch_checks_with_filter`:
`{'success': ..., 'items': ..., 'hit_limit': ...}` on success and
`{'success': False, 'items': [], 'error': ...}` on failure (the absent
`hit_limit` key reads as `False`). -/
structure FetchResult (α : Type) where
  success : Bool
  items : List α
  hit_limit : Bool
  error : Option FetchError
deriving DecidableEq, Repr

/-- `RateLimitHandler.handle_rate_limit`: returns `False` once
`retries >= self.max_retries` and `True` (after sleeping) otherwise. -/
def handle_rate_limit (max_retries retries : Nat) : Bool :=
  if max_retries ≤ retries then false else true

/-- The `while page_count < max_pages` loop of `_fetch_checks_with_filter`.
`fuel` is `max_pages - page_count`, so the `fuel = 0` case is the loop
exiting on its condition, after which the code sets `hit_limit = True`
(`if page_count >= max_pages`); a clean break with no `nextLink` also sets
`hit_limit` when `len(all_checks) >= 9800` or when that break happens on
the final permitted page.  A 429 consults `handle_rate_limit`; any other
non-200 status returns an error at once; an exception retries while
`retries < max_retries`.  Note that every iteration consumes a page slot,
including retries, exactly as in the source. -/
def fetchLoop {α σ : Type} (step : σ → ApiResponse α × σ) (max_retries : Nat) :
    Nat → Nat → List α → σ → FetchResult α
  | 0, _, acc, _ => ⟨true, acc, true, none⟩
  | fuel + 1, retries, acc, s =>
    match step s with
    | (ApiResponse.ok items hasNext, s2) =>
      let acc2 := acc ++ items
      if hasNext then
        if 10000 ≤ acc2.length then ⟨true, acc2, true, none⟩
        else fetchLoop step max_retries fuel 0 acc2 s2
      else
        ⟨true, acc2, decide (9800 ≤ acc2.length) || decide (fuel = 0), none⟩
    | (ApiResponse.rateLimited, s2) =>
      if handle_rate_limit max_retries retries then
        fetchLoop step max_retries fuel (retries + 1) acc s2
      else ⟨false, [], false, some FetchError.rate_limit_exceeded⟩
    | (ApiResponse.httpError code, _) =>
      ⟨false, [], false, some (FetchError.http code)⟩
    | (ApiResponse.timeout, s2) =>
      if retries < max_retries then
        fetchLoop step max_retries fuel (retries + 1) acc s2
      else ⟨false, [], false, some FetchError.request_exception⟩

/-- Synthetic healthy backend for one filtered query: serves the true
result set 200 items per page (`'top': 200`), with a `nextLink` exactly
while items remain. -/
def pagedStep {α : Type} (rem : List α) : ApiResponse α × List α :=
  (ApiResponse.ok (rem.take 200) (!(rem.drop 200).isEmpty), rem.drop 200)

/-- Scripted backend: a fixed list of responses consumed one per request;
once exhausted it serves an empty final page. -/
def scriptStep {α : Type} : List (ApiResponse α) → ApiResponse α × List (ApiResponse α)
  | [] => (ApiResponse.ok [] false, [])
  | r :: rest => (r, rest)

/-- Backend that answers HTTP 429 to every request. -/
def step429 {α : Type} : Unit → ApiResponse α × Unit :=
  fun _ => (ApiResponse.rateLimited, ())

/-- `_fetch_checks_with_filter` run against the synthetic paged backend
whose true result set is `backend`, with the script's default
`RateLimitHandler(max_retries=5)`. -/
def fetch_checks_with_filter (backend : List Check) (max_pages : Nat) : FetchResult Check :=
  fetchLoop pagedStep 5 max_pages 0 [] backend

/-- The server-side created-date lookback start of
`_fetch_checks_with_filter`: when the filter string contains
`status eq 'SUCCESS'` the range is widened to `args.timeframe * 10` days,
otherwise it is `args.timeframe` days.  The filter string is a
conjunction of `FilterCond`s, so the substring test is membership of the
SUCCESS conjunct. -/
def fetch_start_date (now : Int) (timeframe : Nat) (filter_conds : List FilterCond) : Int :=
  if FilterCond.status Status.SUCCESS ∈ filter_conds then
    now - 86400 * (timeframe * 10)
  else
    now - 86400 * timeframe

/-- Python truthiness of `check.get('id')`: `None` and `''` are falsy. -/
def truthyId : Option String → Bool
  | none => false
  | some s => if s = "" then false else true

/-- The loop of `_deduplicate_checks` with its `seen_ids` set: a check with
a truthy unseen id is kept and its id recorded, a truthy seen id is
dropped, and a falsy id (`elif not check_id`) is passed through. -/
def dedupAux (seen : List String) : List Check → List Check
  | [] => []
  | check :: rest =>
    match check.id with
    | some s =>
      if s = "" then check :: dedupAux seen rest
      else if s ∈ seen then dedupAux seen rest
      else check :: dedupAux (s :: seen) rest
    | none => check :: dedupAux seen rest

/-- `_deduplicate_checks`: remove duplicate checks based on check id. -/
def deduplicate_checks (checks : List Check) : List Check :=
  dedupAux [] checks

/-- The per-service filter built inside `fetch_service_data`:
`filter_conditions + [f"service eq '{service}'"]`. -/
def service_filter (filter_conditions : List FilterCond) (service : String) : List FilterCond :=
  filter_conditions ++ [FilterCond.service service]

/-- The list of filters issued by the comprehensive-service-chunking path:
one `service eq` sub-query per catalog entry and nothing else. -/
def comprehensive_service_filters (base : List FilterCond) (services : List String) :
    List (List FilterCond) :=
  services.map (service_filter base)

/-- The per-service dictionary built by
`ServiceConcurrencyManager.fetch_service_data`: a successful fetch with
items keeps them together with its `hit_limit` flag; a failed or empty
fetch contributes no items and an error tag (`result.get('error',
'no_data')`); a raised exception (`none` input) is caught and reported as
the exception's message. -/
structure ServiceFetchOutcome where
  service : String
  items : List Check
  hit_limit : Bool
  error : Option FetchError
deriving DecidableEq, Repr

def fetch_service_data (service : String) (result : Option (FetchResult Check)) :
    ServiceFetchOutcome :=
  match result with
  | none => ⟨service, [], false, some FetchError.request_exception⟩
  | some r =>
    if r.success && !r.items.isEmpty then ⟨service, r.items, r.hit_limit, none⟩
    else ⟨service, [], false, some (r.error.getD FetchError.no_data)⟩

/-- Return dictionary of
`ServiceConcurrencyManager.fetch_services_concurrently`. -/
structure ServicesResult where
  success : Bool
  items : List Check
  services_with_data : List String
  services_hitting_limits : List String
  services_with_errors : List String
deriving DecidableEq, Repr

/-- The `as_completed` collection loop of `fetch_services_concurrently`:
an outcome with items extends `all_items` and is recorded in
`services_with_data` (and in `services_hitting_limits` when flagged);
an outcome with no items but an error is recorded in
`services_with_errors`; an empty error-free outcome leaves everything
unchanged.  Completion order is modelled as the given list order. -/
def collectServiceResults : List ServiceFetchOutcome → ServicesResult
  | [] => ⟨true, [], [], [], []⟩
  | o :: rest =>
    let r := collectServiceResults rest
    if !o.items.isEmpty then
      ⟨r.success, o.items ++ r.items, o.service :: r.services_with_data,
        (if o.hit_limit then [o.service] else []) ++ r.services_hitting_limits,
        r.services_with_errors⟩
    else if o.error.isSome then
      ⟨r.success, r.items, r.services_with_data, r.services_hitting_limits,
        o.service :: r.services_with_errors⟩
    else r

/-- `fetch_services_concurrently`: fan out one `fetch_service_data` per
catalog service and collect the outcomes.  `fetchFor` is the fetch of the
sub-query `base ∧ service = s` (`none` models a raised exception). -/
def fetch_services_concurrently (services : List String)
    (fetchFor : String → Option (FetchResult Check)) : ServicesResult :=
  collectServiceResults (services.map (fun s => fetch_service_data s (fetchFor s)))

/-- `_get_checks_with_comprehensive_service_chunking`: delegates to
`fetch_services_concurrently` and returns its result when `success` holds
(the collection loop always sets `success = True`, so the failure branch
of the source is unreachable; the statistics updates are logging only). -/
def get_checks_with_comprehensive_service_chunking (services : List String)
    (fetchFor : String → Option (FetchResult Check)) : ServicesResult :=
  fetch_services_concurrently services fetchFor

/-- The whole partitioner run against a synthetic backend: the true result
set of the base query is `backend`, and the sub-query `base ∧ service = s`
truly matches exactly the checks with `service = s`, served paged; each
per-service fetch uses `max_pages=50` as in `fetch_service_data`. -/
def runPartitioner (services : List String) (backend : List Check) : ServicesResult :=
  get_checks_with_comprehensive_service_chunking services
    (fun s => some (fetch_checks_with_filter
      (backend.filter (fun c => decide (c.service = s))) 50))

/-- Catch-all sub-query assembled by `_get_unknown_services`: the excluded
service names and the length of the composed filter string. -/
structure CatchAllQuery where
  excluded_services : List String
  filter_length : Nat
deriving DecidableEq, Repr

/-- Length of one exclusion clause `f"not service eq '{service}'"`:
17 characters of fixed text and quotes plus the service name. -/
def exclusion_condition_length (service : String) : Nat :=
  17 + service.length

/-- Length of `' and '.join(parts)` given the parts' lengths. -/
def join_and_length : List Nat → Nat
  | [] => 0
  | [n] => n
  | n :: rest => n + 5 + join_and_length rest

/-- The filter construction and length guard of `_get_unknown_services`,
on the lengths of the composed strings: exclude the first 30 known
services; if `base + ' and ' + joined exclusions` exceeds 1500 characters,
rebuild with `max(1, (1500 - len(base) - 10) // 25)` exclusions, and if
the rebuilt filter still exceeds 1500 characters skip the sub-query
entirely (`none`).  Otherwise the returned query is the one sent to
`_fetch_checks_with_filter`. -/
def get_unknown_services_query (base_filter_length : Nat) (known_services : List String) :
    Option CatchAllQuery :=
  let services_to_exclude := known_services.take 30
  let len1 := base_filter_length + 5 +
    join_and_length (services_to_exclude.map exclusion_condition_length)
  if 1500 < len1 then
    let max_exclusions := max 1 ((1500 - base_filter_length - 10) / 25)
    let services2 := known_services.take max_exclusions
    let len2 := base_filter_length + 5 +
      join_and_length (services2.map exclusion_condition_length)
    if 1500 < len2 then none
    else some ⟨services2, len2⟩
  else some ⟨services_to_exclude, len1⟩

/-- Membership of an optional timestamp in `[filter_start, filter_end]`
(a missing or unparseable field never matches). -/
def in_window (filter_start filter_end : Int) : Option Int → Bool
  | some t => decide (filter_start ≤ t) && decide (t ≤ filter_end)
  | none => false

/-- The client-side inclusion test of `process_checks_for_account`:
a SUCCESS check is included when its `resolvedDateTime` lies in the
window; a FAILURE check when any of `failureDiscoveredDateTime`,
`statusUpdatedDateTime`, `updatedDateTime` does. -/
def include_check (filter_start filter_end : Int) (check : Check) : Bool :=
  match check.status with
  | Status.SUCCESS => in_window filter_start filter_end check.resolvedDateTime
  | Status.FAILURE =>
    [check.failureDiscoveredDateTime, check.statusUpdatedDateTime,
      check.updatedDateTime].any (in_window filter_start filter_end)

/-- The counting part of `process_checks_for_account`: how many included
checks get streamed tagged SUCCESS and how many tagged FAILURE, for the
window `[now - timeframe days, now]`. -/
def process_checks_counts (now : Int) (timeframe : Nat) (checks : List Check) : Nat × Nat :=
  let filter_start : Int := now - 86400 * timeframe
  (checks.countP (fun c =>
      include_check filter_start now c && decide (c.status = Status.SUCCESS)),
   checks.countP (fun c =>
      include_check filter_start now c && decide (c.status = Status.FAILURE)))

/-- In-memory state of `ProgressTracker` (Python sets become finsets). -/
structure TrackerState where
  completed_accounts : Finset String
  failed_accounts : Finset String
  total_checks : Nat
deriving DecidableEq

/-- Tracker plus the `progress_<session>.json` file; the file holds the
last state written by `save_progress` (field order in the JSON is
irrelevant to the embedded logic). -/
structure TrackerWorld where
  state : TrackerState
  progress_file : Option TrackerState
deriving DecidableEq

/-- `save_progress`: rewrite the full current state to the session file. -/
def save_progress (w : TrackerWorld) : TrackerWorld :=
  { w with progress_file := some w.state }

/-- `mark_completed`: add to the completed set, grow the running total,
then persist the full state. -/
def mark_completed (w : TrackerWorld) (account_id : String) (check_count : Nat) : TrackerWorld :=
  save_progress { w with state :=
    ⟨insert account_id w.state.completed_accounts, w.state.failed_accounts,
      w.state.total_checks + check_count⟩ }

/-- `mark_failed`: add to the failed set, then persist the full state. -/
def mark_failed (w : TrackerWorld) (account_id : String) : TrackerWorld :=
  save_progress { w with state :=
    ⟨w.state.completed_accounts, insert account_id w.state.failed_accounts,
      w.state.total_checks⟩ }

/-- `is_completed`. -/
def is_completed (st : TrackerState) (account_id : String) : Bool :=
  decide (account_id ∈ st.completed_accounts)

/-- `load_progress` in a fresh process: the file contents if present,
otherwise the empty initial state. -/
def load_progress : Option TrackerState → TrackerState
  | some st => st
  | none => ⟨∅, ∅, 0⟩

/-- `cleanup`: remove the progress file after successful completion. -/
def cleanup (w : TrackerWorld) : TrackerWorld :=
  { w with progress_file := none }

/-- The resume filter of `main`: with `--resume`, keep only accounts not
already completed. -/
def accounts_to_process (resume : Bool) (st : TrackerState) (accounts : List String) :
    List String :=
  if resume then accounts.filter (fun a => !is_completed st a) else accounts

/-- The tracker mutations available while a run progresses. -/
inductive TrackerOp where
  | completed (account_id : String) (check_count : Nat)
  | failed (account_id : String)

def apply_op (w : TrackerWorld) : TrackerOp → TrackerWorld
  | TrackerOp.completed account_id n => mark_completed w account_id n
  | TrackerOp.failed account_id => mark_failed w account_id

def apply_ops (w : TrackerWorld) (ops : List TrackerOp) : TrackerWorld :=
  ops.foldl apply_op w

/-- Result dictionary of `get_checks_for_account` (restricted to the keys
`main` reads: `items`, `error`, `skipped`). -/
structure AccountFetchResult where
  items : List Check
  error : Option String
  skipped : Bool
deriving DecidableEq, Repr

/-- `get_checks_for_account`, after the per-status chunked fetches:
skip when resuming an already-completed account; otherwise concatenate the
items of the successful status requests, and either deduplicate and
return them, or — when nothing at all was collected — mark the account
failed and return the `'all_status_requests_failed'` error tag. -/
def get_checks_for_account (resume : Bool) (w : TrackerWorld) (account_id : String)
    (status_results : List ServicesResult) : TrackerWorld × AccountFetchResult :=
  if resume && is_completed w.state account_id then
    (w, ⟨[], none, true⟩)
  else
    let all_checks :=
      (status_results.filterMap (fun r => if r.success then some r.items else none)).flatten
    if all_checks.isEmpty then
      (mark_failed w account_id, ⟨[], some "all_status_requests_failed", false⟩)
    else
      (w, ⟨deduplicate_checks all_checks, none, false⟩)

/-- The per-account completion bookkeeping of `main`'s collection loop:
`if not checks_info.get('error'): progress_tracker.mark_completed(...)`. -/
def main_account_step (w : TrackerWorld) (account_id : String) (res : AccountFetchResult)
    (processed_count : Nat) : TrackerWorld :=
  if res.error = none then mark_completed w account_id processed_count else w

/-! ### Lemmas about the paged fetch loop -/

lemma fetchLoop_paged_complete {α : Type} :
    ∀ (k fuel mr retries : Nat) (acc rem : List α),
      rem.length ≤ 200 * k → 0 < k → k < fuel → acc.length + rem.length < 10000 →
      fetchLoop pagedStep mr fuel retries acc rem =
        ⟨true, acc ++ rem, decide (9800 ≤ acc.length + rem.length), none⟩ := by
  intro k
  induction k with
  | zero => intro fuel mr retries acc rem _ h2; omega
  | succ k ih =>
    intro fuel mr retries acc rem hlen _ hfuel hsum
    obtain ⟨f, rfl⟩ : ∃ f, fuel = f + 1 := ⟨fuel - 1, by omega⟩
    by_cases hr : rem.length ≤ 200
    · have hdrop : rem.drop 200 = [] := List.drop_eq_nil_of_le hr
      have htake : rem.take 200 = rem := List.take_of_length_le hr
      have hf : ¬(f = 0) := by omega
      simp [fetchLoop, pagedStep, hdrop, htake, hf, List.length_append]
    · have hfalse : (rem.drop 200).isEmpty = false := by
        simp [List.isEmpty_iff, List.drop_eq_nil_iff]; omega
      have hlen2 : (acc ++ rem.take 200).length = acc.length + 200 := by
        simp [List.length_append, List.length_take]; omega
      have hnot : ¬(10000 ≤ (acc ++ rem.take 200).length) := by omega
      have hrec := ih f mr 0 (acc ++ rem.take 200) (rem.drop 200)
        (by simp [List.length_drop]; omega) (by omega) (by omega)
        (by simp [hlen2, List.length_drop]; omega)
      have heq : acc.length + 200 + (rem.length - 200) = acc.length + rem.length := by
        omega
      simp only [fetchLoop, pagedStep, Bool.not_eq_true']
      rw [if_pos hfalse, if_neg hnot, hrec, List.append_assoc, List.take_append_drop,
        hlen2, List.length_drop, heq]

lemma fetchLoop_paged_hit {α : Type} :
    ∀ (fuel mr retries : Nat) (acc rem : List α),
      9800 ≤ acc.length + rem.length →
      (fetchLoop pagedStep mr fuel retries acc rem).hit_limit = true := by
  intro fuel
  induction fuel with
  | zero => intro mr retries acc rem _; simp [fetchLoop]
  | succ f ih =>
    intro mr retries acc rem h
    by_cases hr : (rem.drop 200).isEmpty = true
    · have hle : rem.length ≤ 200 := by
        simpa [List.isEmpty_iff, List.drop_eq_nil_iff] using hr
      simp [fetchLoop, pagedStep, hr]
      omega
    · have h200 : ¬(rem.length ≤ 200) := by
        simpa [List.isEmpty_iff, List.drop_eq_nil_iff] using hr
      by_cases hbig : 10000 ≤ acc.length + 200 ⊓ rem.length
      · simp [fetchLoop, pagedStep, hr, hbig]
      · have hrec := ih mr 0 (acc ++ rem.take 200) (rem.drop 200)
          (by simp [List.length_append, List.length_take, List.length_drop]; omega)
        simp [fetchLoop, pagedStep, hr, hbig, hrec]

lemma fetchLoop_paged_maxpages {α : Type} :
    ∀ (fuel mr retries : Nat) (acc rem : List α),
      200 * fuel ≤ rem.length →
      (fetchLoop pagedStep mr fuel retries acc rem).hit_limit = true := by
  intro fuel
  induction fuel with
  | zero => intro mr retries acc rem _; simp [fetchLoop]
  | succ f ih =>
    intro mr retries acc rem hlen
    by_cases hr : (rem.drop 200).isEmpty = true
    · have hle : rem.length ≤ 200 := by
        simpa [List.isEmpty_iff, List.drop_eq_nil_iff] using hr
      have hf : f = 0 := by omega
      simp [fetchLoop, pagedStep, hr, hf]
    · by_cases hbig : 10000 ≤ acc.length + 200 ⊓ rem.length
      · simp [fetchLoop, pagedStep, hr, hbig]
      · have hrec := ih mr 0 (acc ++ rem.take 200) (rem.drop 200)
          (by simp [List.length_drop]; omega)
        simp [fetchLoop, pagedStep, hr, hbig, hrec]

/-- Under-ceiling completeness of `_fetch_checks_with_filter` with the
default `max_pages = 50`. -/
lemma fetch_complete_of_small (backend : List Check) (h : backend.length < 9800) :
    fetch_checks_with_filter backend 50 = ⟨true, backend, false, none⟩ := by
  have := fetchLoop_paged_complete 49 50 5 0 [] backend (by omega) (by omega)
    (by omega) (by simp; omega)
  simpa [fetch_checks_with_filter, show ¬(9800 ≤ backend.length) by omega] using this

/-! ### Lemmas about `_deduplicate_checks` -/

lemma dedupAux_sublist : ∀ (seen : List String) (l : List Check),
    (dedupAux seen l).Sublist l := by
  intro seen l
  induction l generalizing seen with
  | nil => simp [dedupAux]
  | cons c rest ih =>
    cases hid : c.id with
    | none => simpa [dedupAux, hid] using (ih seen).cons₂ c
    | some s =>
      by_cases hs : s = ""
      · simpa [dedupAux, hid, hs] using (ih seen).cons₂ c
      · by_cases hseen : s ∈ seen
        · simpa [dedupAux, hid, hs, hseen] using (ih seen).cons c
        · simpa [dedupAux, hid, hs, hseen] using (ih (s :: seen)).cons₂ c

/-- A check Python would treat as having no usable id (`not check_id`). -/
def falsyCheck (c : Check) : Bool := !truthyId c.id

lemma dedupAux_filter_falsy : ∀ (seen : List String) (l : List Check),
    (dedupAux seen l).filter falsyCheck = l.filter falsyCheck := by
  intro seen l
  induction l generalizing seen with
  | nil => simp [dedupAux]
  | cons c rest ih =>
    cases hid : c.id with
    | none =>
      have hc : falsyCheck c = true := by
        rw [falsyCheck, hid]
        rfl
      simp only [dedupAux, hid]
      rw [List.filter_cons_of_pos hc, List.filter_cons_of_pos hc, ih seen]
    | some s =>
      by_cases hs : s = ""
      · have hc : falsyCheck c = true := by
          rw [falsyCheck, hid, hs]
          rfl
        simp only [dedupAux, hid]
        rw [if_pos hs, List.filter_cons_of_pos hc, List.filter_cons_of_pos hc, ih seen]
      · have hc : ¬(falsyCheck c = true) := by
          rw [falsyCheck, hid]
          simp [truthyId, hs]
        by_cases hseen : s ∈ seen
        · simp only [dedupAux, hid]
          rw [if_neg hs, if_pos hseen, List.filter_cons_of_neg hc, ih seen]
        · simp only [dedupAux, hid]
          rw [if_neg hs, if_neg hseen, List.filter_cons_of_neg hc,
            List.filter_cons_of_neg hc, ih (s :: seen)]

lemma mem_dedupAux_not_seen : ∀ (seen : List String) (l : List Check) (c : Check)
    (s : String), c ∈ dedupAux seen l → c.id = some s → ¬(s = "") → s ∉ seen := by
  intro seen l
  induction l generalizing seen with
  | nil => simp [dedupAux]
  | cons c0 rest ih =>
    intro c s hmem hid hs
    cases hid0 : c0.id with
    | none =>
      simp only [dedupAux, hid0] at hmem
      rcases List.mem_cons.mp hmem with rfl | hmem2
      · rw [hid0] at hid; exact absurd hid (by simp)
      · exact ih seen c s hmem2 hid hs
    | some t =>
      by_cases ht : t = ""
      · simp only [dedupAux, hid0] at hmem
        rw [if_pos ht] at hmem
        rcases List.mem_cons.mp hmem with rfl | hmem2
        · rw [hid0] at hid
          exact absurd (Option.some.inj hid ▸ ht) hs
        · exact ih seen c s hmem2 hid hs
      · simp only [dedupAux, hid0] at hmem
        by_cases hseen : t ∈ seen
        · rw [if_neg ht, if_pos hseen] at hmem
          exact ih seen c s hmem hid hs
        · rw [if_neg ht, if_neg hseen] at hmem
          rcases List.mem_cons.mp hmem with rfl | hmem2
          · rw [hid0] at hid
            rw [Option.some.inj hid] at hseen
            exact hseen
          · intro hmem_seen
            exact ih (t :: seen) c s hmem2 hid hs (List.mem_cons_of_mem t hmem_seen)

lemma dedupAux_pairwise : ∀ (seen : List String) (l : List Check),
    (dedupAux seen l).Pairwise (fun a b => truthyId a.id = false ∨ a.id ≠ b.id) := by
  intro seen l
  induction l generalizing seen with
  | nil => simp [dedupAux]
  | cons c0 rest ih =>
    cases hid0 : c0.id with
    | none =>
      simp only [dedupAux, hid0]
      exact List.Pairwise.cons (fun b _ => Or.inl (by simp [hid0, truthyId])) (ih seen)
    | some t =>
      simp only [dedupAux, hid0]
      by_cases ht : t = ""
      · rw [if_pos ht]
        exact List.Pairwise.cons
          (fun b _ => Or.inl (by simp [hid0, ht, truthyId])) (ih seen)
      · by_cases hseen : t ∈ seen
        · rw [if_neg ht, if_pos hseen]
          exact ih seen
        · rw [if_neg ht, if_neg hseen]
          refine List.Pairwise.cons (fun b hb => Or.inr ?_) (ih (t :: seen))
          intro hidb
          rw [hid0] at hidb
          exact mem_dedupAux_not_seen (t :: seen) rest b t hb hidb.symm ht
            (List.mem_cons_self t seen)

lemma dedupAux_idem : ∀ (seen : List String) (l : List Check),
    dedupAux seen (dedupAux seen l) = dedupAux seen l := by
  intro seen l
  induction l generalizing seen with
  | nil => simp [dedupAux]
  | cons c0 rest ih =>
    cases hid0 : c0.id with
    | none => simp [dedupAux, hid0, ih seen]
    | some t =>
      by_cases ht : t = ""
      · simp [dedupAux, hid0, ht, ih seen]
      · by_cases hseen : t ∈ seen
        · simp [dedupAux, hid0, ht, hseen, ih seen]
        · simp [dedupAux, hid0, ht, hseen, ih (t :: seen)]

lemma dedupAux_eq_self : ∀ (seen : List String) (l : List Check),
    (∀ c ∈ l, truthyId c.id = true) →
    (l.map (fun c => c.id)).Nodup →
    (∀ c ∈ l, ∀ s, c.id = some s → s ∉ seen) →
    dedupAux seen l = l := by
  intro seen l
  induction l generalizing seen with
  | nil => simp [dedupAux]
  | cons c0 rest ih =>
    intro htru hnd hseen
    have h0 := htru c0 (List.mem_cons_self c0 rest)
    cases hid0 : c0.id with
    | none => rw [hid0] at h0; simp [truthyId] at h0
    | some t =>
      have ht : ¬(t = "") := by
        intro h
        rw [hid0, h] at h0
        simp [truthyId] at h0
      have htseen : t ∉ seen := hseen c0 (List.mem_cons_self c0 rest) t hid0
      simp only [dedupAux, hid0]
      rw [if_neg ht, if_neg htseen]
      rw [List.map_cons, List.nodup_cons] at hnd
      have hrest : dedupAux (t :: seen) rest = rest := by
        refine ih (t :: seen) (fun c hc => htru c (List.mem_cons_of_mem c0 hc)) hnd.2 ?_
        intro c hc s hs hmem
        rcases List.mem_cons.mp hmem with rfl | hmem2
        · exact hnd.1 (by
            rw [hid0, ← hs]
            exact List.mem_map_of_mem (fun c => c.id) hc)
        · exact hseen c (List.mem_cons_of_mem c0 hc) s hs hmem2
      rw [hrest]

lemma deduplicate_checks_eq_self (l : List Check)
    (htru : ∀ c ∈ l, truthyId c.id = true)
    (hnd : (l.map (fun c => c.id)).Nodup) :
    deduplicate_checks l = l :=
  dedupAux_eq_self [] l htru hnd (by simp)

lemma deduplicate_checks_ne_nil (l : List Check) (h : l ≠ []) :
    deduplicate_checks l ≠ [] := by
  cases l with
  | nil => exact absurd rfl h
  | cons c rest =>
    rw [deduplicate_checks, dedupAux]
    cases c.id with
    | none => simp
    | some s =>
      by_cases hs : s = "" <;> simp [hs]

/-! ### Lemmas about the per-service merge -/

lemma collect_success (outs : List ServiceFetchOutcome) :
    (collectServiceResults outs).success = true := by
  induction outs with
  | nil => rfl
  | cons o rest ih =>
    by_cases h1 : o.items.isEmpty <;> by_cases h2 : o.error.isSome <;>
      simp [collectServiceResults, h1, h2, ih]

lemma collect_items (outs : List ServiceFetchOutcome) :
    (collectServiceResults outs).items = (outs.map (fun o => o.items)).flatten := by
  induction outs with
  | nil => rfl
  | cons o rest ih =>
    by_cases h1 : o.items.isEmpty
    · have : o.items = [] := List.isEmpty_iff.mp h1
      by_cases h2 : o.error.isSome <;>
        simp [collectServiceResults, h1, h2, ih, this]
    · simp [collectServiceResults, h1, ih]

lemma collect_data (outs : List ServiceFetchOutcome) :
    (collectServiceResults outs).services_with_data =
      (outs.filter (fun o => !o.items.isEmpty)).map (fun o => o.service) := by
  induction outs with
  | nil => rfl
  | cons o rest ih =>
    by_cases h1 : o.items.isEmpty <;> by_cases h2 : o.error.isSome <;>
      simp [collectServiceResults, h1, h2, ih]

lemma collect_hitting (outs : List ServiceFetchOutcome) :
    (collectServiceResults outs).services_hitting_limits =
      (outs.filter (fun o => !o.items.isEmpty && o.hit_limit)).map (fun o => o.service) := by
  induction outs with
  | nil => rfl
  | cons o rest ih =>
    by_cases h1 : o.items.isEmpty
    · by_cases h2 : o.error.isSome <;>
        simp [collectServiceResults, h1, h2, ih]
    · by_cases h3 : o.hit_limit <;>
        simp [collectServiceResults, h1, h3, ih]

lemma fetch_service_data_ok (s : String) (items : List Check) (hl : Bool)
    (hne : items.isEmpty = false) :
    fetch_service_data s (some ⟨true, items, hl, none⟩) = ⟨s, items, hl, none⟩ := by
  simp [fetch_service_data, hne]

lemma collect_single (o : ServiceFetchOutcome) (hne : o.items.isEmpty = false)
    (hhit : o.hit_limit = true) :
    (collectServiceResults [o]).services_hitting_limits = [o.service] := by
  simp [collectServiceResults, hne, hhit]

lemma collect_errors (outs : List ServiceFetchOutcome) :
    (collectServiceResults outs).services_with_errors =
      (outs.filter (fun o => o.items.isEmpty && o.error.isSome)).map (fun o => o.service) := by
  induction outs with
  | nil => rfl
  | cons o rest ih =>
    by_cases h1 : o.items.isEmpty <;> by_cases h2 : o.error.isSome <;>
      simp [collectServiceResults, h1, h2, ih]

/-! ### Partition lemma: per-service filters recover the whole list -/

lemma flatten_filter_perm : ∀ (services : List String) (l : List Check),
    services.Nodup → (∀ c ∈ l, c.service ∈ services) →
    ((services.map (fun s => l.filter (fun c => decide (c.service = s)))).flatten).Perm l := by
  intro services
  induction services with
  | nil =>
    intro l _ hcov
    have : l = [] := by
      cases l with
      | nil => rfl
      | cons c rest => exact absurd (hcov c (List.mem_cons_self c rest)) (by simp)
    simp [this]
  | cons s ss ih =>
    intro l hnd hcov
    rw [List.nodup_cons] at hnd
    have hmap : ss.map (fun t => l.filter (fun c => decide (c.service = t))) =
        ss.map (fun t =>
          (l.filter (fun c => !(decide (c.service = s)))).filter
            (fun c => decide (c.service = t))) := by
      refine List.map_congr_left ?_
      intro t htmem
      rw [List.filter_filter]
      refine (List.filter_congr ?_).symm
      intro c _
      by_cases hct : c.service = t
      · have hts : ¬(t = s) := fun h => hnd.1 (h ▸ htmem)
        have hcs : ¬(c.service = s) := fun h => hts (by rw [← hct, h])
        simp [hct, hcs]
        exact hts
      · simp [hct]
    have hcov2 : ∀ c ∈ l.filter (fun c => !(decide (c.service = s))), c.service ∈ ss := by
      intro c hc
      rw [List.mem_filter] at hc
      have hne : ¬(c.service = s) := by simpa using hc.2
      rcases List.mem_cons.mp (hcov c hc.1) with h | h
      · exact absurd h hne
      · exact h
    have hih := ih (l.filter (fun c => !(decide (c.service = s)))) hnd.2 hcov2
    rw [List.map_cons, List.flatten_cons, hmap]
    exact List.Perm.trans (List.Perm.append_left _ hih)
      (List.filter_append_perm (fun c => decide (c.service = s)) l)

/-! ### Fixtures -/

/-- A check with only an id and a service, as produced by a synthetic
backend. -/
def mkCheckEntry (i : Option String) (svc : String) : Check :=
  ⟨i, svc, Status.FAILURE, none, none, none, none⟩

def cA : Check := mkCheckEntry (some "a") "EC2"

def cB : Check := mkCheckEntry (some "b") "EC2"

/-! ### Claim theorems -/

/-- Claim C2, counterexample.  The claim asserts that a backend returning
exactly N < 10,000 items with no next-page pointer yields `hitCeiling =
false`; at N = 9800 the loop's 98%-margin test (`len(all_checks) >=
9800`) fires on the clean stop, so the fetch returns `hit_limit = true`
although N < 10,000. -/
theorem C2_counterexample :
    (List.replicate 9800 cA).length < 10000 ∧
    (fetch_checks_with_filter (List.replicate 9800 cA) 50).hit_limit = true := by
  constructor
  · rw [List.length_replicate]
    omega
  · exact fetchLoop_paged_hit 50 5 0 [] (List.replicate 9800 cA)
      (by simp only [List.length_nil, List.length_replicate]; omega)

/-- Claim C2, amended.  For the paged fetch with the default
`max_pages = 50`: a backend of N < 9800 items is returned in full with
`hit_limit = false` and no error; once the accumulated total reaches 9800
(98% of 10,000) the flag is true — this covers both the clean-stop margin
and the forced stop at 10,000 accumulated items; and whenever the page
budget cannot cover the backend (`200 * max_pages ≤ N`) the `max_pages`
forced stop reports `hit_limit = true` as well. -/
theorem C2_page_fetch_ceiling_flag :
    (∀ backend : List Check, backend.length < 9800 →
      fetch_checks_with_filter backend 50 = ⟨true, backend, false, none⟩) ∧
    (∀ backend : List Check, 9800 ≤ backend.length →
      (fetch_checks_with_filter backend 50).hit_limit = true) ∧
    (∀ (backend : List Check) (max_pages : Nat), 200 * max_pages ≤ backend.length →
      (fetch_checks_with_filter backend max_pages).hit_limit = true) := by
  refine ⟨fun b h => fetch_complete_of_small b h, fun b h => ?_, fun b mp h => ?_⟩
  · exact fetchLoop_paged_hit 50 5 0 [] b (by simpa)
  · exact fetchLoop_paged_maxpages mp 5 0 [] b (by simpa)

/-- Witness for C2's amended theorem at a concrete 5-item backend. -/
theorem C2_page_fetch_ceiling_flag_witness :
    fetch_checks_with_filter (List.replicate 5 cA) 50 =
      ⟨true, List.replicate 5 cA, false, none⟩ :=
  C2_page_fetch_ceiling_flag.1 (List.replicate 5 cA) (by simp)

/-- Claim C5: `handle_rate_limit` refuses exactly when
`retries >= max_retries` (default 5); against an all-429 backend the
fetch loop terminates with the `rate_limit_exceeded` error, the error
appearing exactly when the sixth consecutive 429 arrives — i.e. after the
initial request has been retried `max_retries = 5` times — while five
429s followed by a good page still succeed. -/
theorem C5_rate_limit_termination :
    (∀ max_retries retries : Nat,
      handle_rate_limit max_retries retries = false ↔ max_retries ≤ retries) ∧
    (fetchLoop step429 5 50 0 ([] : List Check) () =
      ⟨false, [], false, some FetchError.rate_limit_exceeded⟩) ∧
    (fetchLoop scriptStep 5 50 0 ([] : List Check)
        (List.replicate 6 ApiResponse.rateLimited) =
      ⟨false, [], false, some FetchError.rate_limit_exceeded⟩) ∧
    (fetchLoop scriptStep 5 50 0 ([] : List Check)
        (List.replicate 5 ApiResponse.rateLimited) =
      ⟨true, [], false, none⟩) := by
  refine ⟨fun m r => ?_, rfl, rfl, rfl⟩
  by_cases h : m ≤ r <;> simp [handle_rate_limit, h]

/-- Claim C4, counterexample.  The claim asserts that HTTP 502/503/504
are transient and retried; in the code every non-200, non-429 status
returns `{'success': False, 'error': f'http_{code}'}` at once.  A 503
first response aborts the sub-query immediately — the healthy page behind
it is never requested — while the same backend without the 503 succeeds. -/
theorem C4_counterexample :
    fetchLoop scriptStep 5 50 0 ([] : List Check)
        [ApiResponse.httpError 503, ApiResponse.ok [cA] false] =
      ⟨false, [], false, some (FetchError.http 503)⟩ ∧
    fetchLoop scriptStep 5 50 0 ([] : List Check) [ApiResponse.ok [cA] false] =
      ⟨true, [cA], false, none⟩ :=
  ⟨rfl, rfl⟩

/-- Claim C4, amended.  Only HTTP 429 and request exceptions (timeouts)
are transient: 429s and timeouts are retried in place and a subsequent
good page yields a successful result with no data loss; exhausting the
retry budget degrades the sub-query to an error result (never an endless
loop); any other HTTP status — 4xx and 5xx alike — aborts the affected
sub-query immediately with `success = false` and the error field
populated.  No page-size shrinking exists in the code. -/
theorem C4_error_taxonomy :
    (fetchLoop scriptStep 5 50 0 ([] : List Check)
        [ApiResponse.rateLimited, ApiResponse.rateLimited,
          ApiResponse.ok [cA] true, ApiResponse.ok [cB] false] =
      ⟨true, [cA, cB], false, none⟩) ∧
    (fetchLoop scriptStep 5 50 0 ([] : List Check)
        [ApiResponse.timeout, ApiResponse.ok [cA] false] =
      ⟨true, [cA], false, none⟩) ∧
    (fetchLoop scriptStep 5 50 0 ([] : List Check) (List.replicate 6 ApiResponse.timeout) =
      ⟨false, [], false, some FetchError.request_exception⟩) ∧
    (∀ (σ : Type) (step : σ → ApiResponse Check × σ) (st st2 : σ)
        (code fuel retries : Nat) (acc : List Check),
      step st = (ApiResponse.httpError code, st2) →
      fetchLoop step 5 (fuel + 1) retries acc st =
        ⟨false, [], false, some (FetchError.http code)⟩) := by
  refine ⟨rfl, rfl, rfl, ?_⟩
  intro σ step st st2 code fuel retries acc h
  simp [fetchLoop, h]

/-- Witness for C4's amended theorem: a first-response 404 aborts at
once. -/
theorem C4_error_taxonomy_witness :
    fetchLoop scriptStep 5 50 0 ([] : List Check) [ApiResponse.httpError 404] =
      ⟨false, [], false, some (FetchError.http 404)⟩ :=
  C4_error_taxonomy.2.2.2 (List (ApiResponse Check)) scriptStep
    [ApiResponse.httpError 404] [] 404 49 0 [] rfl

/-- A check whose id key is present but empty — Python-falsy, yet not
null. -/
def cEmpty : Check := mkCheckEntry (some "") "EC2"

/-- Claim C7, counterexample.  Two checks whose id is the empty string
both pass through `_deduplicate_checks` (the guard is Python truthiness,
`if check_id`), so the output contains two elements sharing the non-null
identifier `""`. -/
theorem C7_counterexample :
    deduplicate_checks [cEmpty, cEmpty] = [cEmpty, cEmpty] ∧
    cEmpty.id ≠ none ∧
    ¬((deduplicate_checks [cEmpty, cEmpty]).Pairwise
        (fun a b => a.id = none ∨ a.id ≠ b.id)) := by
  refine ⟨rfl, by simp [cEmpty, mkCheckEntry], ?_⟩
  intro h
  have h2 := List.rel_of_pairwise_cons h (List.mem_cons_self cEmpty [])
  rcases h2 with h3 | h3
  · exact absurd h3 (by simp [cEmpty, mkCheckEntry])
  · exact h3 rfl

/-- Claim C7, amended.  `_deduplicate_checks` is idempotent; its output
has no two elements sharing a *truthy* (non-null and non-empty)
identifier; the output is a sublist of the input, so first-seen order is
preserved; and records lacking a usable identifier (missing or empty —
Python-falsy) are passed through unfiltered, in order and multiplicity. -/
theorem C7_dedupe_properties :
    (∀ checks : List Check,
      deduplicate_checks (deduplicate_checks checks) = deduplicate_checks checks) ∧
    (∀ checks : List Check,
      (deduplicate_checks checks).Pairwise
        (fun a b => truthyId a.id = false ∨ a.id ≠ b.id)) ∧
    (∀ checks : List Check, (deduplicate_checks checks).Sublist checks) ∧
    (∀ checks : List Check,
      (deduplicate_checks checks).filter falsyCheck = checks.filter falsyCheck) :=
  ⟨fun l => dedupAux_idem [] l, fun l => dedupAux_pairwise [] l,
    fun l => dedupAux_sublist [] l, fun l => dedupAux_filter_falsy [] l⟩

/-- Claim C8: the concurrent per-service collection is pointwise.  The
merged items are exactly the concatenation of each outcome's own items,
the error list names exactly the services whose outcome carried an error
and no items, the data list names exactly the services that returned
items, and the merge always reports success — so one sub-query's failure
or exception neither cancels nor alters any sibling's contribution.
Moreover `fetch_service_data` sends an erroring or empty sub-query onward
with an empty item list (an error tag only), under the sub-query's own
service name. -/
theorem C8_independent_service_collection :
    (∀ outs : List ServiceFetchOutcome,
      (collectServiceResults outs).items = (outs.map (fun o => o.items)).flatten ∧
      (collectServiceResults outs).services_with_errors =
        (outs.filter (fun o => o.items.isEmpty && o.error.isSome)).map
          (fun o => o.service) ∧
      (collectServiceResults outs).services_with_data =
        (outs.filter (fun o => !o.items.isEmpty)).map (fun o => o.service) ∧
      (collectServiceResults outs).success = true) ∧
    (∀ (service : String) (r : Option (FetchResult Check)),
      (fetch_service_data service r).error = none ∨
        (fetch_service_data service r).items = []) ∧
    (∀ (service : String) (r : Option (FetchResult Check)),
      (fetch_service_data service r).service = service) := by
  refine ⟨fun outs =>
      ⟨collect_items outs, collect_errors outs, collect_data outs, collect_success outs⟩,
    fun s r => ?_, fun s r => ?_⟩
  · rcases r with _ | r
    · exact Or.inr rfl
    · by_cases h : (r.success && !r.items.isEmpty) = true <;>
        simp [fetch_service_data, h]
  · rcases r with _ | r
    · rfl
    · by_cases h : (r.success && !r.items.isEmpty) = true <;>
        simp [fetch_service_data, h]

/-- Completed accounts stay completed under any later tracker mutations:
neither `mark_completed` nor `mark_failed` ever removes an account from
the completed set. -/
lemma apply_ops_completed_mono : ∀ (ops : List TrackerOp) (w : TrackerWorld)
    (account_id : String),
    account_id ∈ w.state.completed_accounts →
    account_id ∈ (apply_ops w ops).state.completed_accounts := by
  intro ops
  induction ops with
  | nil => intro w a h; exact h
  | cons op rest ih =>
    intro w a h
    rw [apply_ops, List.foldl_cons]
    cases op with
    | completed id n =>
      exact ih (apply_op w (TrackerOp.completed id n)) a
        (by simp [apply_op, mark_completed, save_progress, Finset.mem_insert_of_mem, h])
    | failed id =>
      exact ih (apply_op w (TrackerOp.failed id)) a
        (by simp [apply_op, mark_failed, save_progress, h])

/-- Claim C9: `mark_completed` makes `is_completed` true and rewrites the
full checkpoint state (completed set grown, failed set unchanged, running
total grown) to the session file; a fresh process resuming from a
checkpoint with A and B completed processes only accounts outside the
completed set — never A or B — and no later sequence of tracker
operations ever demotes A back to pending; `cleanup` deletes the
checkpoint file. -/
theorem C9_checkpoint_resume :
    (∀ (w : TrackerWorld) (account_id : String) (n : Nat),
      is_completed (mark_completed w account_id n).state account_id = true ∧
      (mark_completed w account_id n).progress_file =
        some (mark_completed w account_id n).state ∧
      (mark_completed w account_id n).state =
        ⟨insert account_id w.state.completed_accounts, w.state.failed_accounts,
          w.state.total_checks + n⟩) ∧
    (∀ (file : TrackerState) (accounts : List String) (A B : String),
      A ∈ file.completed_accounts → B ∈ file.completed_accounts →
      A ∉ accounts_to_process true (load_progress (some file)) accounts ∧
      B ∉ accounts_to_process true (load_progress (some file)) accounts ∧
      (∀ a ∈ accounts_to_process true (load_progress (some file)) accounts,
        a ∈ accounts ∧ a ∉ (load_progress (some file)).completed_accounts) ∧
      (∀ ops : List TrackerOp,
        A ∈ (apply_ops ⟨load_progress (some file), some file⟩ ops).state.completed_accounts)) ∧
    (∀ w : TrackerWorld, (cleanup w).progress_file = none) := by
  refine ⟨fun w account_id n =>
      ⟨by simp [mark_completed, save_progress, is_completed], rfl, rfl⟩,
    fun file accounts A B hA hB => ?_, fun w => rfl⟩
  refine ⟨?_, ?_, ?_, ?_⟩
  · intro hmem
    rw [accounts_to_process, if_pos rfl, List.mem_filter] at hmem
    exact absurd hA (by simpa [load_progress, is_completed] using hmem.2)
  · intro hmem
    rw [accounts_to_process, if_pos rfl, List.mem_filter] at hmem
    exact absurd hB (by simpa [load_progress, is_completed] using hmem.2)
  · intro a hmem
    rw [accounts_to_process, if_pos rfl, List.mem_filter] at hmem
    exact ⟨hmem.1, by simpa [load_progress, is_completed] using hmem.2⟩
  · intro ops
    exact apply_ops_completed_mono ops ⟨load_progress (some file), some file⟩ A
      (by simpa [load_progress] using hA)

def fileAB : TrackerState := ⟨insert "A" (insert "B" (∅ : Finset String)), ∅, 7⟩

/-- Witness for C9 at a concrete checkpoint with accounts A, B done. -/
theorem C9_checkpoint_resume_witness :
    "A" ∉ accounts_to_process true (load_progress (some fileAB)) ["A", "B", "C"] ∧
    "B" ∉ accounts_to_process true (load_progress (some fileAB)) ["A", "B", "C"] ∧
    (∀ a ∈ accounts_to_process true (load_progress (some fileAB)) ["A", "B", "C"],
      a ∈ ["A", "B", "C"] ∧ a ∉ (load_progress (some fileAB)).completed_accounts) ∧
    (∀ ops : List TrackerOp,
      "A" ∈ (apply_ops ⟨load_progress (some fileAB), some fileAB⟩ ops).state.completed_accounts) :=
  C9_checkpoint_resume.2.1 fileAB ["A", "B", "C"] "A" "B"
    (by simp [fileAB]) (by simp [fileAB])

/-- Claim C10: when every status request for an account yields no checks
at all — including the legitimate zero-findings case —
`get_checks_for_account` marks the account failed and returns the
`'all_status_requests_failed'` error tag; `main` marks an account
completed exactly when the result carries no error; consequently an
account whose fetch collected zero checks is never newly marked
completed. -/
theorem C10_zero_checks_never_completed :
    (∀ (w : TrackerWorld) (account_id : String) (status_results : List ServicesResult),
      (status_results.filterMap
          (fun r => if r.success then some r.items else none)).flatten = [] →
      (get_checks_for_account false w account_id status_results).2.error =
        some "all_status_requests_failed" ∧
      account_id ∈
        (get_checks_for_account false w account_id status_results).1.state.failed_accounts) ∧
    (∀ (w : TrackerWorld) (account_id : String) (res : AccountFetchResult) (n : Nat),
      ¬(res.error = none) → main_account_step w account_id res n = w) ∧
    (∀ (w : TrackerWorld) (account_id : String) (res : AccountFetchResult) (n : Nat),
      res.error = none →
      main_account_step w account_id res n = mark_completed w account_id n) ∧
    (∀ (w : TrackerWorld) (account_id : String) (status_results : List ServicesResult)
        (n : Nat),
      (get_checks_for_account false w account_id status_results).2.items = [] →
      account_id ∉ w.state.completed_accounts →
      account_id ∉
        (main_account_step (get_checks_for_account false w account_id status_results).1
          account_id (get_checks_for_account false w account_id status_results).2
          n).state.completed_accounts) := by
  refine ⟨fun w account_id sr h => ?_, fun w account_id res n h => by
      simp [main_account_step, h],
    fun w account_id res n h => by simp [main_account_step, h],
    fun w account_id sr n hitems hnot => ?_⟩
  · constructor
    · simp [get_checks_for_account, h]
    · simp [get_checks_for_account, h, mark_failed, save_progress]
  · by_cases hempty :
      ((sr.filterMap (fun r => if r.success then some r.items else none)).flatten).isEmpty = true
    · have hres : get_checks_for_account false w account_id sr =
          (mark_failed w account_id, ⟨[], some "all_status_requests_failed", false⟩) := by
        simp [get_checks_for_account, hempty]
      rw [hres]
      simp [main_account_step, mark_failed, save_progress]
      exact hnot
    · have hres : get_checks_for_account false w account_id sr =
          (w, ⟨deduplicate_checks
              ((sr.filterMap (fun r => if r.success then some r.items else none)).flatten),
            none, false⟩) := by
        simp [get_checks_for_account, hempty]
      rw [hres] at hitems
      exact absurd hitems
        (deduplicate_checks_ne_nil _ (by simpa [List.isEmpty_iff] using hempty))

def srEmptySuccess : ServicesResult := ⟨true, [], [], [], []⟩

lemma in_window_iff (filter_start filter_end : Int) (o : Option Int) :
    in_window filter_start filter_end o = true ↔
      ∃ t, o = some t ∧ filter_start ≤ t ∧ t ≤ filter_end := by
  cases o <;> simp [in_window]

/-- A FAILURE check whose only populated date field is
`failureDiscoveredDateTime`. -/
def failureAt (i : Option String) (t : Int) : Check :=
  ⟨i, "EC2", Status.FAILURE, none, some t, none, none⟩

/-- Backend for the concrete C3 scenario: window is
`[1000000 - 7 * 86400, 1000000] = [395200, 1000000]`; three FAILURE
checks discovered inside it, two outside. -/
def scenarioChecks : List Check :=
  [failureAt (some "f1") 400000, failureAt (some "f2") 500000,
   failureAt (some "f3") 999999, failureAt (some "f4") 100,
   failureAt (some "f5") 395199]

/-- Claim C3: a filter containing the SUCCESS conjunct widens the
server-side created-date lookback to ten times the timeframe (and any
other filter uses the plain timeframe); a fetched check is included
client-side iff it is a SUCCESS check whose `resolvedDateTime` lies in
the window, or a FAILURE check one of whose `failureDiscoveredDateTime`,
`statusUpdatedDateTime`, `updatedDateTime` lies in the window; and the
concrete 3-inside/2-outside FAILURE backend yields exactly 3 records
tagged FAILURE and 0 tagged SUCCESS. -/
theorem C3_success_date_handling :
    (∀ (now : Int) (timeframe : Nat) (filter_conds : List FilterCond),
      FilterCond.status Status.SUCCESS ∈ filter_conds →
      fetch_start_date now timeframe filter_conds = now - 86400 * (timeframe * 10)) ∧
    (∀ (now : Int) (timeframe : Nat) (filter_conds : List FilterCond),
      FilterCond.status Status.SUCCESS ∉ filter_conds →
      fetch_start_date now timeframe filter_conds = now - 86400 * timeframe) ∧
    (∀ (filter_start filter_end : Int) (c : Check),
      include_check filter_start filter_end c = true ↔
        ((c.status = Status.SUCCESS ∧
            ∃ t, c.resolvedDateTime = some t ∧ filter_start ≤ t ∧ t ≤ filter_end) ∨
         (c.status = Status.FAILURE ∧
            ∃ t, (c.failureDiscoveredDateTime = some t ∨
                  c.statusUpdatedDateTime = some t ∨
                  c.updatedDateTime = some t) ∧ filter_start ≤ t ∧ t ≤ filter_end))) ∧
    process_checks_counts 1000000 7 scenarioChecks = (0, 3) := by
  refine ⟨fun now tf conds h => by rw [fetch_start_date, if_pos h],
    fun now tf conds h => by rw [fetch_start_date, if_neg h],
    fun fs fe c => ?_, by decide⟩
  cases hst : c.status <;>
    simp [include_check, hst, in_window_iff, or_and_right, exists_or]

/-- Witness for C3 at a concrete SUCCESS filter. -/
theorem C3_success_date_handling_witness :
    fetch_start_date 1000000 7 [FilterCond.status Status.SUCCESS] =
      1000000 - 86400 * (7 * 10) :=
  C3_success_date_handling.1 1000000 7 [FilterCond.status Status.SUCCESS]
    (List.mem_cons_self _ _)

/-- The string of `n` copies of the letter a; used as synthetic service
and id names. -/
def strN (n : Nat) : String := String.mk (List.replicate n 'a')

lemma strN_length (n : Nat) : (strN n).length = n := by
  rw [strN, String.length_mk, List.length_replicate]

lemma strN_inj (a b : Nat) (h : strN a = strN b) : a = b := by
  have := congrArg String.length h
  rwa [strN_length, strN_length] at this

lemma strN_ne_empty (n : Nat) (hn : 0 < n) : ¬(strN n = "") := by
  intro h
  have := congrArg String.length h
  rw [strN_length, String.length_empty] at this
  omega

/-- A 31-entry service catalog of pairwise distinct names. -/
def svcCatalog31 : List String := (List.range 31).map (fun i => strN (i + 1))

/-- Claim C6, counterexample.  With a 31-service catalog and a short base
filter, `_get_unknown_services` issues the catch-all with
`known_services[:30]` excluded: the 31st known service is not excluded,
so the filter does not exclude every known service value. -/
theorem C6_counterexample :
    get_unknown_services_query 40 svcCatalog31 =
      some ⟨svcCatalog31.take 30, 1165⟩ ∧
    strN 31 ∈ svcCatalog31 ∧
    strN 31 ∉ svcCatalog31.take 30 := by
  decide

/-- Claim C6, amended.  The catch-all exclusion sub-query exists only in
the legacy risk-level chunking path (`_get_unknown_services`, called from
`_chunk_risk_level_by_services`); whenever it is sent, its composed
filter is at most 1500 characters and its exclusion list is a prefix of
the catalog — the first 30 services, or the truncated
`max(1, (1500 - len(base) - 10) / 25)` of them when the first attempt was
too long (the sub-query is skipped entirely when even that exceeds
1500).  The active comprehensive-service-chunking path issues exactly one
`service eq` sub-query per catalog entry and no catch-all at all. -/
theorem C6_catch_all_truncation :
    (∀ (base_filter_length : Nat) (known_services : List String) (q : CatchAllQuery),
      get_unknown_services_query base_filter_length known_services = some q →
      q.filter_length ≤ 1500 ∧
      (q.excluded_services = known_services.take 30 ∨
        q.excluded_services =
          known_services.take (max 1 ((1500 - base_filter_length - 10) / 25)))) ∧
    (∀ (base : List FilterCond) (services : List String),
      (comprehensive_service_filters base services).length = services.length ∧
      ∀ q ∈ comprehensive_service_filters base services,
        ∃ s ∈ services, q = base ++ [FilterCond.service s]) := by
  constructor
  · intro bl ks q h
    simp only [get_unknown_services_query] at h
    split_ifs at h with h1 h2
    · obtain rfl := (Option.some.inj h).symm
      exact ⟨by simpa using h2, Or.inr rfl⟩
    · obtain rfl := (Option.some.inj h).symm
      exact ⟨by simpa using h1, Or.inl rfl⟩
  · intro base services
    constructor
    · simp [comprehensive_service_filters]
    · intro q hq
      obtain ⟨s, hs, rfl⟩ := List.mem_map.mp hq
      exact ⟨s, hs, rfl⟩

/-- Witness for C6's amended theorem at the 31-service catalog. -/
theorem C6_catch_all_truncation_witness :
    (1165 : Nat) ≤ 1500 ∧
    (svcCatalog31.take 30 = svcCatalog31.take 30 ∨
      svcCatalog31.take 30 = svcCatalog31.take (max 1 ((1500 - 40 - 10) / 25))) :=
  C6_catch_all_truncation.1 40 svcCatalog31 ⟨svcCatalog31.take 30, 1165⟩ (by decide)

/-- Claim C1, amended.  The unconditional invariant fails on the code
(see the counterexample below): the active chunking path issues no
catch-all, so it recovers the true result set only when the catalog
covers every service occurring in it, and the ceiling margin is 9800,
not 10,000.  What holds: when the catalog covers every occurring
service, check ids are globally unique and truthy (the dedup-key
assumption of the data model), and every per-service sub-query stays
under the 9800-item ceiling margin, the merged then deduplicated output
of the comprehensive service chunking is a permutation of the true
result set and no partition is reported as hitting the ceiling.  In
particular a true result set of 25,000 checks split evenly (5,000 each)
across 5 catalog services comes back as exactly 25,000 unique checks
with no `services_hitting_limits` entries. -/
theorem C1_partition_completeness :
    (∀ (services : List String) (backend : List Check),
      services.Nodup →
      (∀ c ∈ backend, c.service ∈ services) →
      (∀ c ∈ backend, truthyId c.id = true) →
      (backend.map (fun c => c.id)).Nodup →
      (∀ s ∈ services,
        (backend.filter (fun c => decide (c.service = s))).length < 9800) →
      (deduplicate_checks (runPartitioner services backend).items).Perm backend ∧
      (runPartitioner services backend).services_hitting_limits = [] ∧
      (runPartitioner services backend).success = true) ∧
    (∀ (services : List String) (backend : List Check),
      backend.length = 25000 → services.length = 5 →
      services.Nodup →
      (∀ c ∈ backend, c.service ∈ services) →
      (∀ c ∈ backend, truthyId c.id = true) →
      (backend.map (fun c => c.id)).Nodup →
      (∀ s ∈ services,
        (backend.filter (fun c => decide (c.service = s))).length = 5000) →
      (deduplicate_checks (runPartitioner services backend).items).length = 25000 ∧
      (runPartitioner services backend).services_hitting_limits = []) := by
  have main : ∀ (services : List String) (backend : List Check),
      services.Nodup →
      (∀ c ∈ backend, c.service ∈ services) →
      (∀ c ∈ backend, truthyId c.id = true) →
      (backend.map (fun c => c.id)).Nodup →
      (∀ s ∈ services,
        (backend.filter (fun c => decide (c.service = s))).length < 9800) →
      (deduplicate_checks (runPartitioner services backend).items).Perm backend ∧
      (runPartitioner services backend).services_hitting_limits = [] ∧
      (runPartitioner services backend).success = true := by
    intro services backend hnd hcov htru hids hsmall
    have hfetch : ∀ s ∈ services,
        fetch_checks_with_filter
            (backend.filter (fun c => decide (c.service = s))) 50 =
          ⟨true, backend.filter (fun c => decide (c.service = s)), false, none⟩ :=
      fun s hs => fetch_complete_of_small _ (hsmall s hs)
    have houtcome : ∀ s ∈ services,
        fetch_service_data s (some (fetch_checks_with_filter
            (backend.filter (fun c => decide (c.service = s))) 50)) =
          ⟨s, backend.filter (fun c => decide (c.service = s)), false,
            if (backend.filter (fun c => decide (c.service = s))).isEmpty then
              some FetchError.no_data else none⟩ := by
      intro s hs
      rw [hfetch s hs]
      by_cases he : (backend.filter (fun c => decide (c.service = s))).isEmpty
      · have : backend.filter (fun c => decide (c.service = s)) = [] :=
          List.isEmpty_iff.mp he
        simp [fetch_service_data, he, this]
      · simp [fetch_service_data, he]
    have hitems : (runPartitioner services backend).items =
        (services.map
          (fun s => backend.filter (fun c => decide (c.service = s)))).flatten := by
      rw [runPartitioner, get_checks_with_comprehensive_service_chunking,
        fetch_services_concurrently, collect_items, List.map_map]
      congr 1
      refine List.map_congr_left ?_
      intro s hs
      show (fetch_service_data s (some (fetch_checks_with_filter
          (backend.filter (fun c => decide (c.service = s))) 50))).items = _
      rw [houtcome s hs]
    have hperm : ((services.map
        (fun s => backend.filter (fun c => decide (c.service = s)))).flatten).Perm
          backend :=
      flatten_filter_perm services backend hnd hcov
    have hdedup : deduplicate_checks (runPartitioner services backend).items =
        (runPartitioner services backend).items := by
      rw [hitems]
      refine deduplicate_checks_eq_self _ ?_ ?_
      · intro c hc
        exact htru c (hperm.mem_iff.mp hc)
      · exact ((hperm.map (fun c => c.id)).nodup_iff).mpr hids
    refine ⟨by rw [hdedup, hitems]; exact hperm, ?_, ?_⟩
    · rw [runPartitioner, get_checks_with_comprehensive_service_chunking,
        fetch_services_concurrently, collect_hitting]
      rw [List.filter_eq_nil_iff.mpr ?_]
      · rfl
      · intro o ho
        obtain ⟨s, hs, rfl⟩ := List.mem_map.mp ho
        rw [houtcome s hs]
        simp
    · rw [runPartitioner, get_checks_with_comprehensive_service_chunking,
        fetch_services_concurrently]
      exact collect_success _
  refine ⟨main, ?_⟩
  intro services backend hlen hslen hnd hcov htru hids hexact
  have hsmall : ∀ s ∈ services,
      (backend.filter (fun c => decide (c.service = s))).length < 9800 := by
    intro s hs
    rw [hexact s hs]
    omega
  obtain ⟨hperm, hhit, _⟩ := main services backend hnd hcov htru hids hsmall
  exact ⟨by rw [hperm.length_eq, hlen], hhit⟩

/-! ### C1 witness fixtures: a small backend and the 25,000-check one -/

def wServices : List String := ["EC2", "S3"]

def wBackend : List Check := [cA, cB, mkCheckEntry (some "c") "S3"]

def services5 : List String := ["EC2", "S3", "RDS", "Lambda", "IAM"]

def svcAt : Nat → String
  | 0 => "EC2"
  | 1 => "S3"
  | 2 => "RDS"
  | 3 => "Lambda"
  | _ => "IAM"

/-- 5,000 checks of service `svcAt k` with pairwise distinct ids. -/
def block25 (k : Nat) : List Check :=
  (List.range 5000).map (fun j => mkCheckEntry (some (strN (5000 * k + j + 1))) (svcAt k))

/-- 25,000 checks split evenly across the 5 services of `services5`. -/
def backend25k : List Check :=
  block25 0 ++ (block25 1 ++ (block25 2 ++ (block25 3 ++ block25 4)))

lemma block25_service (k : Nat) : ∀ c ∈ block25 k, c.service = svcAt k := by
  intro c hc
  obtain ⟨j, _, rfl⟩ := List.mem_map.mp hc
  rfl

lemma block25_filter (k : Nat) (s : String) :
    (block25 k).filter (fun c => decide (c.service = s)) =
      if svcAt k = s then block25 k else [] := by
  by_cases h : svcAt k = s
  · rw [if_pos h]
    refine List.filter_eq_self.mpr ?_
    intro c hc
    simp [block25_service k c hc, h]
  · rw [if_neg h]
    refine List.filter_eq_nil_iff.mpr ?_
    intro c hc
    simp [block25_service k c hc, h]

lemma backend25k_length : backend25k.length = 25000 := by
  simp [backend25k, block25]

lemma backend25k_cover : ∀ c ∈ backend25k, c.service ∈ services5 := by
  intro c hc
  simp only [backend25k, List.mem_append] at hc
  rcases hc with h | h | h | h | h <;>
    rw [block25_service _ c h] <;> simp [svcAt, services5]

lemma backend25k_truthy : ∀ c ∈ backend25k, truthyId c.id = true := by
  have hblock : ∀ k, ∀ c ∈ block25 k, truthyId c.id = true := by
    intro k c hck
    obtain ⟨j, _, rfl⟩ := List.mem_map.mp hck
    show truthyId (some (strN (5000 * k + j + 1))) = true
    rw [truthyId, if_neg (strN_ne_empty _ (by omega))]
  intro c hc
  simp only [backend25k, List.mem_append] at hc
  rcases hc with h | h | h | h | h <;> exact hblock _ c h

lemma block25_ids (k : Nat) : (block25 k).map (fun c => c.id) =
    (List.range 5000).map (fun j => some (strN (5000 * k + j + 1))) := by
  rw [block25, List.map_map]
  rfl

lemma block25_ids_nodup (k : Nat) : ((block25 k).map (fun c => c.id)).Nodup := by
  rw [block25_ids]
  refine List.Nodup.map ?_ (List.nodup_range 5000)
  intro a b h
  have := strN_inj _ _ (Option.some.inj h)
  omega

lemma block25_ids_disjoint (k1 k2 : Nat) (hne : ¬(k1 = k2)) :
    List.Disjoint ((block25 k1).map (fun c => c.id))
      ((block25 k2).map (fun c => c.id)) := by
  intro x hx hx2
  rw [block25_ids] at hx hx2
  obtain ⟨j1, hj1, rfl⟩ := List.mem_map.mp hx
  obtain ⟨j2, hj2, heq⟩ := List.mem_map.mp hx2
  rw [List.mem_range] at hj1 hj2
  have := strN_inj _ _ (Option.some.inj heq)
  omega

lemma backend25k_ids_nodup : (backend25k.map (fun c => c.id)).Nodup := by
  rw [backend25k]
  simp only [List.map_append]
  refine List.Nodup.append (block25_ids_nodup 0) ?_ ?_
  · refine List.Nodup.append (block25_ids_nodup 1) ?_ ?_
    · refine List.Nodup.append (block25_ids_nodup 2) ?_ ?_
      · exact List.Nodup.append (block25_ids_nodup 3) (block25_ids_nodup 4)
          (block25_ids_disjoint 3 4 (by omega))
      · rw [List.disjoint_append_right]
        exact ⟨block25_ids_disjoint 2 3 (by omega), block25_ids_disjoint 2 4 (by omega)⟩
    · rw [List.disjoint_append_right, List.disjoint_append_right]
      exact ⟨block25_ids_disjoint 1 2 (by omega),
        block25_ids_disjoint 1 3 (by omega), block25_ids_disjoint 1 4 (by omega)⟩
  · rw [List.disjoint_append_right, List.disjoint_append_right,
      List.disjoint_append_right]
    exact ⟨block25_ids_disjoint 0 1 (by omega), block25_ids_disjoint 0 2 (by omega),
      block25_ids_disjoint 0 3 (by omega), block25_ids_disjoint 0 4 (by omega)⟩

lemma backend25k_filter : ∀ s ∈ services5,
    (backend25k.filter (fun c => decide (c.service = s))).length = 5000 := by
  intro s hs
  have hs2 : s = "EC2" ∨ s = "S3" ∨ s = "RDS" ∨ s = "Lambda" ∨ s = "IAM" := by
    simpa [services5] using hs
  have hlen : ∀ k, (block25 k).length = 5000 := by
    intro k
    simp [block25]
  rcases hs2 with rfl | rfl | rfl | rfl | rfl <;>
    simp [backend25k, List.filter_append, block25_filter, svcAt, hlen]

/-- A check whose service lies outside the catalog used below. -/
def cS3x : Check := mkCheckEntry (some "x") "S3"

/-- Claim C1, counterexample.  The invariant as stated — the union of the
per-service partition sub-queries' results, deduplicated, equals the
true unbounded result set — is false on the code in two ways.  First,
the active path has no catch-all: with catalog `["EC2"]` and a true
result set consisting of one check of service `"S3"`, the merged
deduplicated output is empty, not the true result set.  Second, the
ceiling report uses the 9800 margin: a per-service sub-query of 9800
checks stays under the 10,000-item ceiling, yet the partitioner reports
that partition as hitting the ceiling. -/
theorem C1_counterexample :
    deduplicate_checks (runPartitioner ["EC2"] [cS3x]).items = [] ∧
    ¬(deduplicate_checks (runPartitioner ["EC2"] [cS3x]).items).Perm [cS3x] ∧
    (List.replicate 9800 cA).length < 10000 ∧
    (runPartitioner ["EC2"] (List.replicate 9800 cA)).services_hitting_limits =
      ["EC2"] := by
  have hempty : deduplicate_checks (runPartitioner ["EC2"] [cS3x]).items = [] := by
    decide
  refine ⟨hempty, ?_, ?_, ?_⟩
  · intro h
    rw [hempty] at h
    simpa using h.length_eq
  · rw [List.length_replicate]
    omega
  · have hfilter : (List.replicate 9800 cA).filter
        (fun c => decide (c.service = "EC2")) = List.replicate 9800 cA := by
      refine List.filter_eq_self.mpr ?_
      intro c hc
      rw [List.eq_of_mem_replicate hc]
      decide
    have hfetch : fetch_checks_with_filter (List.replicate 9800 cA) 50 =
        ⟨true, List.replicate 9800 cA, true, none⟩ := by
      have h1 := fetchLoop_paged_complete 49 50 5 0 [] (List.replicate 9800 cA)
        (by simp only [List.length_replicate]; omega) (by omega) (by omega)
        (by simp only [List.length_nil, List.length_replicate]; omega)
      have h2 : decide (9800 ≤ ([] : List Check).length +
          (List.replicate 9800 cA).length) = true := by
        simp only [List.length_nil, List.length_replicate]
        decide
      rw [fetch_checks_with_filter, h1, h2]
      rw [List.nil_append]
    have hfalse : (List.replicate 9800 cA).isEmpty = false := by
      cases h : (List.replicate 9800 cA).isEmpty with
      | false => rfl
      | true =>
        exfalso
        rw [List.isEmpty_iff] at h
        have := congrArg List.length h
        rw [List.length_replicate, List.length_nil] at this
        omega
    rw [runPartitioner, get_checks_with_comprehensive_service_chunking,
      fetch_services_concurrently, List.map_cons, List.map_nil, hfilter, hfetch,
      fetch_service_data_ok "EC2" (List.replicate 9800 cA) true hfalse]
    exact collect_single ⟨"EC2", List.replicate 9800 cA, true, none⟩ hfalse rfl

/-- Witness for C1: the general conjunct at a 3-check, 2-service backend
and the scenario conjunct at the concrete 25,000-check, 5-service
backend. -/
theorem C1_partition_completeness_witness :
    ((deduplicate_checks (runPartitioner wServices wBackend).items).Perm wBackend ∧
      (runPartitioner wServices wBackend).services_hitting_limits = [] ∧
      (runPartitioner wServices wBackend).success = true) ∧
    ((deduplicate_checks (runPartitioner services5 backend25k).items).length = 25000 ∧
      (runPartitioner services5 backend25k).services_hitting_limits = []) :=
  ⟨C1_partition_completeness.1 wServices wBackend (by decide) (by decide) (by decide)
      (by decide) (by decide),
    C1_partition_completeness.2 services5 backend25k backend25k_length (by decide)
      (by decide) backend25k_cover backend25k_truthy backend25k_ids_nodup
      backend25k_filter⟩

/-- Witness for C10: an account whose single status request succeeded
with zero findings is tagged failed, and the orchestrator step leaves it
out of the completed set. -/
theorem C10_zero_checks_never_completed_witness :
    (get_checks_for_account false ⟨⟨∅, ∅, 0⟩, none⟩ "acct-1" [srEmptySuccess]).2.error =
      some "all_status_requests_failed" ∧
    "acct-1" ∈
      (get_checks_for_account false ⟨⟨∅, ∅, 0⟩, none⟩ "acct-1"
        [srEmptySuccess]).1.state.failed_accounts :=
  C10_zero_checks_never_completed.1 ⟨⟨∅, ∅, 0⟩, none⟩ "acct-1" [srEmptySuccess]
    (by simp [srEmptySuccess])

end Report
